import Mathlib

/-!
Verification of the Diffusive Gibbs MCMC kernel
(`blackjax/mcmc/diffusive_gibbs.py`).

Shallow embedding conventions:
* a JAX pytree of numeric arrays is `PyTree`: a binary tree whose leaves
  hold flat arrays (`List ℝ`);
* `jax.tree.map` over two trees is `treeMap2` (it fails, returning
  `none`, when the two tree structures or leaf lengths differ, as JAX
  raises on structure mismatch);
* PRNG keys are opaque (`Key := ℕ`); the external collaborators
  (`generate_gaussian_noise`, `jax.random.bernoulli`,
  `jax.random.split`, the `mala` sampler constructor, and the autodiff
  gradient) are bundled as an abstract `Externals` record, since the
  spec declares them out of scope;
* machine floats are idealised as real numbers.
-/

namespace DiffusiveGibbs

/-- A flat numeric array (one pytree leaf). -/
abbrev Arr := List ℝ

/-- A JAX pytree of numeric arrays. -/
inductive PyTree where
  | leaf (v : Arr)
  | node (l r : PyTree)

/-- Number of leaves of a pytree. -/
def PyTree.leafCount : PyTree → Nat
  | .leaf _ => 1
  | .node l r => l.leafCount + r.leafCount

/-- The leaves of a pytree, left to right (`jax.tree.leaves`). -/
def PyTree.leaves : PyTree → List Arr
  | .leaf v => [v]
  | .node l r => l.leaves ++ r.leaves

/-- Elementwise unary `jax.tree.map`. -/
def PyTree.umap (f : ℝ → ℝ) : PyTree → PyTree
  | .leaf v => .leaf (v.map f)
  | .node l r => .node (l.umap f) (r.umap f)

/-- Structural (and leaf-shape) equality of two pytrees: the
precondition for binary `jax.tree.map` with elementwise leaf
operations. -/
def sameStruct : PyTree → PyTree → Bool
  | .leaf v, .leaf w => v.length == w.length
  | .node l r, .node l' r' => sameStruct l l' && sameStruct r r'
  | _, _ => false

/-- Binary elementwise `jax.tree.map`: `none` models the `ValueError`
JAX raises on tree-structure mismatch (and shape mismatch at a leaf). -/
def treeMap2 (f : ℝ → ℝ → ℝ) : PyTree → PyTree → Option PyTree
  | .leaf v, .leaf w =>
      if v.length = w.length then some (.leaf (List.zipWith f v w)) else none
  | .node l r, .node l' r' =>
      (treeMap2 f l l').bind fun a =>
      (treeMap2 f r r').bind fun b =>
      some (.node a b)
  | _, _ => none

/-- `jax.tree.map` with a scalar-producing leaf function followed by
`jax.tree_util.tree_reduce(jnp.add, ·)`. -/
def treeMapReduce (g : Arr → Arr → ℝ) : PyTree → PyTree → Option ℝ
  | .leaf v, .leaf w =>
      if v.length = w.length then some (g v w) else none
  | .node l r, .node l' r' =>
      (treeMapReduce g l l').bind fun a =>
      (treeMapReduce g r r').bind fun b =>
      some (a + b)
  | _, _ => none

/-- Sum of a scalar-valued leaf function over the zipped leaves of two
pytrees: the explicit "Σ over leaves" of the spec. -/
def pairSum (g : Arr → Arr → ℝ) (a b : PyTree) : ℝ :=
  (((PyTree.leaves a).zip (PyTree.leaves b)).map (fun p => g p.1 p.2)).sum

/-- Sum of squares of an array: `jnp.sum(x ** 2)`, the squared
Euclidean norm. -/
def sqsum (v : Arr) : ℝ := (v.map (fun x => x ^ 2)).sum

/-- `jnp.linalg.norm`: the (unsquared) Euclidean norm of an array. -/
noncomputable def eunorm (v : Arr) : ℝ := Real.sqrt (sqsum v)

/-- Elementwise difference of two arrays. -/
def asub (v w : Arr) : Arr := List.zipWith (fun x y => x - y) v w

/-- `jnp.clip`. -/
noncomputable def clip (x lo hi : ℝ) : ℝ := min (max x lo) hi

section BasicLemmas

theorem zipWith_left_of_length_eq :
    ∀ {v w : Arr}, v.length = w.length →
      List.zipWith (fun x _ => x) v w = v
  | [], [], _ => rfl
  | x :: v, y :: w, h => by
      simp only [List.zipWith]
      exact congrArg (x :: ·) (zipWith_left_of_length_eq (by simpa using h))
  | [], _ :: _, h => by simp at h
  | _ :: _, [], h => by simp at h

theorem zipWith_right_of_length_eq :
    ∀ {v w : Arr}, v.length = w.length →
      List.zipWith (fun _ y => y) v w = w
  | [], [], _ => rfl
  | x :: v, y :: w, h => by
      simp only [List.zipWith]
      exact congrArg (y :: ·) (zipWith_right_of_length_eq (by simpa using h))
  | [], _ :: _, h => by simp at h
  | _ :: _, [], h => by simp at h

theorem sameStruct_leafCount {a b : PyTree} (h : sameStruct a b = true) :
    a.leafCount = b.leafCount := by
  induction a generalizing b with
  | leaf v => cases b with
    | leaf w => rfl
    | node l r => simp [sameStruct] at h
  | node l r ihl ihr => cases b with
    | leaf w => simp [sameStruct] at h
    | node l' r' =>
      simp only [sameStruct, Bool.and_eq_true] at h
      simp [PyTree.leafCount, ihl h.1, ihr h.2]

theorem sameStruct_leaves_length {a b : PyTree} (h : sameStruct a b = true) :
    (PyTree.leaves a).length = (PyTree.leaves b).length := by
  induction a generalizing b with
  | leaf v => cases b with
    | leaf w => rfl
    | node l r => simp [sameStruct] at h
  | node l r ihl ihr => cases b with
    | leaf w => simp [sameStruct] at h
    | node l' r' =>
      simp only [sameStruct, Bool.and_eq_true] at h
      simp [PyTree.leaves, ihl h.1, ihr h.2]

theorem treeMapReduce_eq_pairSum (g : Arr → Arr → ℝ) {a b : PyTree}
    (h : sameStruct a b = true) :
    treeMapReduce g a b = some (pairSum g a b) := by
  induction a generalizing b with
  | leaf v => cases b with
    | leaf w =>
      simp only [sameStruct, beq_iff_eq] at h
      simp [treeMapReduce, pairSum, PyTree.leaves, h]
    | node l r => simp [sameStruct] at h
  | node l r ihl ihr => cases b with
    | leaf w => simp [sameStruct] at h
    | node l' r' =>
      simp only [sameStruct, Bool.and_eq_true] at h
      have hlen := sameStruct_leaves_length h.1
      simp [treeMapReduce, ihl h.1, ihr h.2, pairSum, PyTree.leaves,
        List.zip_append hlen]

theorem treeMap2_const_left {a b : PyTree} (h : sameStruct a b = true) :
    treeMap2 (fun x _ => x) a b = some a := by
  induction a generalizing b with
  | leaf v => cases b with
    | leaf w =>
      simp only [sameStruct, beq_iff_eq] at h
      simp [treeMap2, h, zipWith_left_of_length_eq h]
    | node l r => simp [sameStruct] at h
  | node l r ihl ihr => cases b with
    | leaf w => simp [sameStruct] at h
    | node l' r' =>
      simp only [sameStruct, Bool.and_eq_true] at h
      simp [treeMap2, ihl h.1, ihr h.2]

theorem treeMap2_const_right {a b : PyTree} (h : sameStruct a b = true) :
    treeMap2 (fun _ y => y) a b = some b := by
  induction a generalizing b with
  | leaf v => cases b with
    | leaf w =>
      simp only [sameStruct, beq_iff_eq] at h
      simp [treeMap2, h, zipWith_right_of_length_eq h]
    | node l r => simp [sameStruct] at h
  | node l r ihl ihr => cases b with
    | leaf w => simp [sameStruct] at h
    | node l' r' =>
      simp only [sameStruct, Bool.and_eq_true] at h
      simp [treeMap2, ihl h.1, ihr h.2]

end BasicLemmas

/-- State of the Diffusive Gibbs algorithm (`GibbsState` NamedTuple). -/
structure GibbsState where
  position : PyTree
  logdensity : ℝ
  logdensity_grad : PyTree
  noise_contraction : ℝ
  noise_sigma : ℝ
  count : ℕ

/-- A PRNG key (opaque; only identity matters for the key-discipline
claims). -/
abbrev Key := ℕ

/-- The minimal interface of the inner MCMC sampler
(blackjax `SamplingAlgorithm`): `init(position, key) -> state`,
`step(key, state) -> (state, info)`, where the state exposes a
`position` field.  The info payload is discarded by `denoise`, so it is
modelled as `Unit`. -/
structure InnerSampler where
  S : Type
  init : PyTree → Key → S
  step : Key → S → S × Unit
  position : S → PyTree

/-- The out-of-scope collaborators the module imports, kept abstract:
`blackjax.util.generate_gaussian_noise(key, ref, mean, std)`,
`jax.random.bernoulli(key, p)`, `jax.random.split(key, 3)` (as
`split3`), `jax.random.split(key, n)` (as `split`),
`blackjax.mala(logdensity_fn, step_size)`, and the gradient component
of `jax.value_and_grad` (`gradOf`; its value component is the function
itself, which the embedding uses directly). -/
structure Externals where
  generate_gaussian_noise : Key → PyTree → ℝ → ℝ → PyTree
  bernoulli : Key → ℝ → Bool
  split3 : Key → Key × Key × Key
  split : Key → ℕ → List Key
  mala : (PyTree → Option ℝ) → ℝ → InnerSampler
  gradOf : (PyTree → ℝ) → PyTree → PyTree

/-- `noiser` (lines 35-52): contract the position by
`noise_contraction` and add Gaussian noise of standard deviation
`noise_sigma`. -/
def noiser (ext : Externals) (rng_key : Key) (state : GibbsState) :
    Option PyTree :=
  let noise := ext.generate_gaussian_noise rng_key state.position 0
    state.noise_sigma
  treeMap2 (fun x n => state.noise_contraction * x + n) state.position noise

/-- `jax.scipy.stats.norm.logpdf(x, loc, scale)` on one scalar:
`-((x - loc) / scale)² / 2 - log(scale·√(2π))`. -/
noncomputable def norm_logpdf (x loc scale : ℝ) : ℝ :=
  -(((x - loc) / scale) ^ 2) / 2 - Real.log (scale * Real.sqrt (2 * Real.pi))

/-- `jnp.multiply` on two leaf arrays, with NumPy scalar broadcasting:
a length-1 array broadcasts against any array; otherwise the lengths
must agree. -/
def mulB (v w : Arr) : Option Arr :=
  if v.length = w.length then some (List.zipWith (fun x y => x * y) v w)
  else
    match w with
    | [c] => some (v.map (fun x => x * c))
    | _ =>
      match v with
      | [c] => some (w.map (fun y => c * y))
      | _ => none

/-- Binary `jax.tree.map` whose leaf operation may itself fail
(used for `jnp.multiply` with broadcasting). -/
def treeMap2O (f : Arr → Arr → Option Arr) : PyTree → PyTree → Option PyTree
  | .leaf v, .leaf w => (f v w).map .leaf
  | .node l r, .node l' r' =>
      (treeMap2O f l l').bind fun a =>
      (treeMap2O f r r').bind fun b =>
      some (.node a b)
  | _, _ => none

/-- `noiser_logpdf` (lines 55-75):
`mean = jax.tree.map(jnp.multiply, sample_clean, state.noise_contraction)`
— the scalar `noise_contraction` is itself a one-leaf pytree, so the
map fails unless `sample_clean` is a single leaf — followed by
`jax.scipy.stats.norm.logpdf(sample_noised, mean, state.noise_sigma ** 2).sum()`
— note the code passes `noise_sigma ** 2` as the *scale* (standard
deviation) argument of `norm.logpdf`.  Only `noise_contraction` and
`noise_sigma` of the state are read, so they are the parameters here. -/
noncomputable def noiser_logpdf (noise_contraction noise_sigma : ℝ)
    (sample_noised sample_clean : PyTree) : Option ℝ :=
  (treeMap2O mulB sample_clean (.leaf [noise_contraction])).bind fun mean =>
    match sample_noised, mean with
    | .leaf v, .leaf m =>
        if v.length = m.length then
          some ((List.zipWith
            (fun x mu => norm_logpdf x mu (noise_sigma ^ 2)) v m).sum)
        else none
    | _, _ => none

/-- What the spec says `noiser_logpdf` computes: the log-density of
`sample_noised` under a Normal with mean `α · sample_clean` and
*variance* `σ²` (hence standard deviation `σ`), summed across all
leaves.  Stated from the spec's words for comparison with the code. -/
noncomputable def noiser_logpdf_spec (noise_contraction noise_sigma : ℝ)
    (sample_noised sample_clean : PyTree) : Option ℝ :=
  treeMapReduce
    (fun v m => (List.zipWith
      (fun x c => norm_logpdf x (noise_contraction * c) noise_sigma) v m).sum)
    sample_noised sample_clean

/-- `gaussian_term` (lines 110-115, inside `init_denoising`):
`jax.tree.map(lambda x, y: -(jnp.linalg.norm(x - y) / (2 * scale ** 2)), a, b)`
followed by `tree_reduce(jnp.add, ·)`.  Note the Euclidean norm is NOT
squared. -/
noncomputable def gaussian_term (a b : PyTree) (scale : ℝ) : Option ℝ :=
  treeMapReduce (fun x y => -(eunorm (asub x y) / (2 * scale ^ 2))) a b

/-- The spec's Gaussian term: `G(a, b, scale) = Σ_leaves −‖a−b‖² / (2·scale²)`
with the per-leaf Euclidean norm squared before division.  Stated from
the spec's words for comparison with the code. -/
noncomputable def gaussian_term_spec (a b : PyTree) (scale : ℝ) : Option ℝ :=
  treeMapReduce (fun x y => -(sqsum (asub x y)) / (2 * scale ^ 2)) a b

/-- The key `init_denoising` passes to `generate_gaussian_noise` at
line 104: the function's own `rng_key` argument. -/
def init_denoising_noise_key (rng_key : Key) : Key := rng_key

/-- The key `init_denoising` passes to `jax.random.bernoulli` at
line 138: again the function's own `rng_key` argument (no split). -/
def init_denoising_bernoulli_key (rng_key : Key) : Key := rng_key

/-- The proposal of `init_denoising` (lines 103-108):
`noised_position / α + noise`, with noise of standard deviation `σ/α`
drawn from the (reused) `rng_key`. -/
noncomputable def proposalOf (ext : Externals) (rng_key : Key) (noised_position : PyTree)
    (state : GibbsState) : Option PyTree :=
  let noise := ext.generate_gaussian_noise (init_denoising_noise_key rng_key)
    noised_position 0 (state.noise_sigma / state.noise_contraction)
  treeMap2 (fun x n => x / state.noise_contraction + n) noised_position noise

/-- `log_accept` of `init_denoising` (lines 117-133): the target
log-density difference plus the proposal log-ratio plus the noising
log-ratio. -/
noncomputable def log_acceptOf (state : GibbsState)
    (logdensity_fn : PyTree → ℝ) (noised_position proposal_position : PyTree) :
    Option ℝ :=
  let scaled_noised :=
    noised_position.umap (fun x => x / state.noise_contraction)
  (gaussian_term state.position scaled_noised
      (state.noise_sigma / state.noise_contraction)).bind fun g1 =>
  (gaussian_term proposal_position scaled_noised
      (state.noise_sigma / state.noise_contraction)).bind fun g2 =>
  let proposal_logratio := g1 - g2
  let scaled_proposal :=
    proposal_position.umap (fun x => x * state.noise_contraction)
  let scaled_position :=
    state.position.umap (fun x => x * state.noise_contraction)
  (gaussian_term scaled_proposal noised_position state.noise_sigma).bind
    fun g3 =>
  (gaussian_term scaled_position noised_position state.noise_sigma).bind
    fun g4 =>
  let noising_logratio := g3 - g4
  let diff_logdensity :=
    logdensity_fn proposal_position - logdensity_fn state.position
  some (diff_logdensity + proposal_logratio + noising_logratio)

/-- Line 136: `prob_accept = jnp.clip(jnp.exp(log_accept), 0.0, 1.0)`. -/
noncomputable def prob_accept_of_log (log_accept : ℝ) : ℝ :=
  clip (Real.exp log_accept) 0 1

/-- The acceptance probability of `init_denoising` (lines 117-136). -/
noncomputable def prob_acceptOf (state : GibbsState)
    (logdensity_fn : PyTree → ℝ) (noised_position proposal_position : PyTree) :
    Option ℝ :=
  (log_acceptOf state logdensity_fn noised_position proposal_position).map
    prob_accept_of_log

/-- `jnp.where(do_accept, x, y)` elementwise with a scalar boolean
condition. -/
def jwhere (b : Bool) (x y : ℝ) : ℝ := if b then x else y

/-- `init_denoising` (lines 78-142): draw the reverse-diffusion
proposal, compute the Metropolis-Hastings acceptance probability, draw
a Bernoulli decision with the SAME `rng_key` that generated the
proposal noise, and select proposal or current position leafwise. -/
noncomputable def init_denoising (ext : Externals) (rng_key : Key)
    (noised_position : PyTree) (state : GibbsState)
    (logdensity_fn : PyTree → ℝ) : Option PyTree :=
  (proposalOf ext rng_key noised_position state).bind fun proposal_position =>
  (prob_acceptOf state logdensity_fn noised_position proposal_position).bind
    fun prob_accept =>
  let do_accept :=
    ext.bernoulli (init_denoising_bernoulli_key rng_key) prob_accept
  treeMap2 (jwhere do_accept) proposal_position state.position

/-- The key `denoise` passes to `denoiser.init` at line 166: its own
`rng_key` argument. -/
def denoise_init_key (rng_key : Key) : Key := rng_key

/-- The key `denoise` passes to `jax.random.split` at line 172: again
its own `rng_key` argument, already consumed by `denoiser.init`. -/
def denoise_split_key (rng_key : Key) : Key := rng_key

/-- `denoise` (lines 145-175): initialize the inner sampler at
`position`, run it for the keys produced by `split(rng_key, n_steps)`
via `jax.lax.scan`, and return the final state's position. -/
def denoise (ext : Externals) (rng_key : Key) (position : PyTree)
    (denoiser : InnerSampler) (n_steps : ℕ) : PyTree :=
  let init_state := denoiser.init position (denoise_init_key rng_key)
  let keys := ext.split (denoise_split_key rng_key) n_steps
  let state_denoised :=
    keys.foldl (fun s k => (denoiser.step k s).1) init_state
  denoiser.position state_denoised

/-- `conditional_logprob` (lines 222-229, inside `kernel`): the target
log-density minus the quadratic tether
`Σ_leaves sum((α·x − noised)²) / (2σ²)`. -/
noncomputable def conditional_logprob (logdensity_fn : PyTree → ℝ)
    (noise_contraction noise_sigma : ℝ) (noised_position : PyTree)
    (x : PyTree) : Option ℝ :=
  let scaled_position := x.umap (fun t => t * noise_contraction)
  (treeMapReduce
      (fun v w => sqsum (asub v w) / (2 * noise_sigma ^ 2))
      scaled_position noised_position).bind fun norm_sum =>
  some (logdensity_fn x - norm_sum)

/-- The spec's tethered surrogate density:
`target_logdensity(x) − Σ_leaves ‖α·x − noised_position‖² / (2σ²)`.
Stated from the spec's words for comparison with the code. -/
noncomputable def tethered_surrogate_spec (logdensity_fn : PyTree → ℝ)
    (noise_contraction noise_sigma : ℝ) (noised_position : PyTree)
    (x : PyTree) : ℝ :=
  logdensity_fn x -
    pairSum (fun v w => sqsum (asub v w) / (2 * noise_sigma ^ 2))
      (x.umap (fun t => t * noise_contraction)) noised_position

/-- The inner sampler the kernel hands to `denoise` (lines 231-233):
`blackjax.mala(conditional_logprob, 1e-2)` — MALA over the tethered
surrogate with a hard-coded step size of `1e-2`, whatever the public
configuration is. -/
noncomputable def inner_sampler_of (ext : Externals) (logdensity_fn : PyTree → ℝ)
    (noise_contraction noise_sigma : ℝ) (noised_position : PyTree) :
    InnerSampler :=
  ext.mala
    (conditional_logprob logdensity_fn noise_contraction noise_sigma
      noised_position)
    (1 / 100)

/-- `kernel` (lines 187-239): evaluate value and gradient of the target
at the pre-transition position, split the key in three, noise, run the
denoising initializer, refine with MALA over the tethered surrogate,
advance the count, re-derive the noise parameters from the schedule,
and assemble the new state. -/
noncomputable def kernel (ext : Externals) (rng_key : Key)
    (state : GibbsState) (logdensity_fn : PyTree → ℝ) (n_steps : ℕ)
    (schedule : ℕ → ℝ × ℝ) : Option GibbsState :=
  let logdensity := logdensity_fn state.position
  let logdensity_grad := ext.gradOf logdensity_fn state.position
  let ks := ext.split3 rng_key
  (noiser ext ks.1 state).bind fun noised_position =>
  (init_denoising ext ks.2.1 noised_position state logdensity_fn).bind
    fun position =>
  let denoised := denoise ext ks.2.2 position
    (inner_sampler_of ext logdensity_fn state.noise_contraction
      state.noise_sigma noised_position)
    n_steps
  let count := state.count + 1
  let ns := schedule count
  some ⟨denoised, logdensity, logdensity_grad, ns.1, ns.2, count⟩

/-- `init` of `as_top_level_api` (lines 268-276): evaluate value and
gradient of the target at `position`, evaluate `schedule(0)`, set
`count = 0`. -/
def init (ext : Externals) (logdensity_fn : PyTree → ℝ)
    (schedule : ℕ → ℝ × ℝ) (position : PyTree) : GibbsState :=
  let logdensity := logdensity_fn position
  let logdensity_grad := ext.gradOf logdensity_fn position
  let cs := schedule 0
  ⟨position, logdensity, logdensity_grad, cs.1, cs.2, 0⟩

/-- The dynamic shape of what the Python `step` returns: either a bare
`GibbsState` or a `(GibbsState, None)` tuple. -/
inductive StepReturn where
  | bare (state : GibbsState)
  | pairNone (state : GibbsState)

/-- `step` of `as_top_level_api` (lines 278-279): it returns
`kernel(rng_key, state, logdensity_fn, n_steps, schedule)` directly —
the kernel's bare `GibbsState`, not a `(state, info)` tuple, despite
the `tuple[GibbsState, None]` annotation. -/
noncomputable def step (ext : Externals) (logdensity_fn : PyTree → ℝ)
    (n_steps : ℕ) (schedule : ℕ → ℝ × ℝ) (rng_key : Key)
    (state : GibbsState) : Option StepReturn :=
  (kernel ext rng_key state logdensity_fn n_steps schedule).map
    StepReturn.bare

/-! ### Concrete instantiations used to evaluate the embedding -/

/-- A trivial inner sampler: its state is the position itself and its
step is the identity.  Used to instantiate the abstract `mala`
collaborator in concrete evaluations. -/
def trivSampler : InnerSampler :=
  ⟨PyTree, fun p _ => p, fun _ s => (s, ()), fun s => s⟩

/-- Concrete collaborators for evaluating the embedding: zero noise of
the reference shape, an always-true Bernoulli, arithmetic key
splitting, the trivial inner sampler, and the identity-shaped
gradient. -/
noncomputable def trivExt : Externals where
  generate_gaussian_noise := fun _ ref _ _ => ref.umap (fun _ => 0)
  bernoulli := fun _ _ => true
  split3 := fun k => (k, k + 1, k + 2)
  split := fun k n => (List.range n).map (fun i => k + i)
  mala := fun _ _ => trivSampler
  gradOf := fun _ t => t

/-- A concrete target log-density: constant zero. -/
def f₀ : PyTree → ℝ := fun _ => 0

/-- A concrete schedule: constantly `(1, 1)`. -/
def sch₀ : ℕ → ℝ × ℝ := fun _ => (1, 1)

/-- A concrete starting state at position `[0]`. -/
noncomputable def s₀ : GibbsState := ⟨.leaf [0], 0, .leaf [0], 1, 1, 0⟩

/-- The state the kernel emits from `s₀` under `trivExt`. -/
noncomputable def out₀ : GibbsState := ⟨.leaf [0], 0, .leaf [0], 1, 1, 1⟩

theorem noiser_eval_base : noiser trivExt 0 s₀ = some (.leaf [0]) := by
  simp [noiser, trivExt, s₀, treeMap2, PyTree.umap]

theorem proposalOf_eval_base (k : Key) :
    proposalOf trivExt k (.leaf [0]) s₀ = some (.leaf [0]) := by
  simp [proposalOf, trivExt, s₀, treeMap2, PyTree.umap,
    init_denoising_noise_key]

theorem prob_acceptOf_eval_base :
    prob_acceptOf s₀ f₀ (.leaf [0]) (.leaf [0]) = some 1 := by
  simp [prob_acceptOf, log_acceptOf, gaussian_term, treeMapReduce, s₀, f₀,
    PyTree.umap, asub, eunorm, sqsum, prob_accept_of_log, clip,
    Real.exp_zero]

theorem init_denoising_eval_base (k : Key) :
    init_denoising trivExt k (.leaf [0]) s₀ f₀ = some (.leaf [0]) := by
  rw [init_denoising, proposalOf_eval_base k, Option.some_bind,
    prob_acceptOf_eval_base, Option.some_bind]
  simp [trivExt, s₀, treeMap2, jwhere]

theorem kernel_eval_base : kernel trivExt 0 s₀ f₀ 0 sch₀ = some out₀ := by
  rw [kernel]
  show (noiser trivExt 0 s₀).bind _ = _
  rw [noiser_eval_base, Option.some_bind]
  show (init_denoising trivExt 1 (.leaf [0]) s₀ f₀).bind _ = _
  rw [init_denoising_eval_base 1, Option.some_bind]
  simp [denoise, trivExt, trivSampler, inner_sampler_of, s₀, f₀, sch₀, out₀]

/-! ### Claims -/

/-- C1: the claim states that the Gaussian term of `init_denoising`
satisfies `G(a, b, scale) = Σ_leaves −‖a−b‖² / (2·scale²)`, with the
per-leaf Euclidean norm squared before division.  The code divides the
UNSQUARED norm: at `a = [2]`, `b = [0]`, `scale = 1` the code's
`gaussian_term` yields `−‖2‖/2 = −1` while the claimed formula yields
`−‖2‖²/2 = −2`.  (The intended squared form is what the same file's
`conditional_logprob` computes for the corresponding tether term.) -/
theorem C1_gaussian_term_norm_not_squared :
    gaussian_term (.leaf [2]) (.leaf [0]) 1 = some (-1) ∧
    gaussian_term_spec (.leaf [2]) (.leaf [0]) 1 = some (-2) ∧
    ((-1 : ℝ)) ≠ -2 := by
  refine ⟨?_, ?_, by norm_num⟩
  · have hs : sqsum (asub [(2 : ℝ)] [0]) = 4 := by
      norm_num [sqsum, asub]
    have h : eunorm (asub [(2 : ℝ)] [0]) = 2 := by
      rw [eunorm, hs, show (4 : ℝ) = 2 ^ 2 by norm_num,
        Real.sqrt_sq (by norm_num : (0 : ℝ) ≤ 2)]
    simp [gaussian_term, treeMapReduce, h]
  · simp [gaussian_term_spec, treeMapReduce, sqsum, asub]
    norm_num

/-- C2: the claim states `noiser_logpdf` returns the log-density of the
noised sample under a Normal with mean `α · clean` and VARIANCE `σ²`.
The code passes `noise_sigma ** 2` as the `scale` (standard-deviation)
argument of `jax.scipy.stats.norm.logpdf`, so it evaluates a Normal of
standard deviation `σ²` (variance `σ⁴`).  At `α = 1`, `σ = 2`,
`clean = noised = [0]` the code returns the `N(0, σ⁴)` log-density
`−log(4·√(2π))`, whereas the claimed density is `−log(2·√(2π))`; the
two differ. -/
theorem C2_noiser_logpdf_variance_wrong :
    noiser_logpdf 1 2 (.leaf [0]) (.leaf [0]) =
      some (norm_logpdf 0 0 (2 ^ 2)) ∧
    noiser_logpdf_spec 1 2 (.leaf [0]) (.leaf [0]) =
      some (norm_logpdf 0 0 2) ∧
    norm_logpdf 0 0 (2 ^ 2) ≠ norm_logpdf 0 0 2 := by
  refine ⟨?_, ?_, ?_⟩
  · simp [noiser_logpdf, treeMap2O, mulB]
  · simp [noiser_logpdf_spec, treeMapReduce]
  · have hc : (0 : ℝ) < Real.sqrt (2 * Real.pi) :=
      Real.sqrt_pos.mpr (by positivity)
    have hlog : Real.log (2 * Real.sqrt (2 * Real.pi)) <
        Real.log (4 * Real.sqrt (2 * Real.pi)) :=
      Real.log_lt_log (by positivity) (by nlinarith)
    have e1 : norm_logpdf 0 0 (2 ^ 2) =
        -Real.log (4 * Real.sqrt (2 * Real.pi)) := by
      norm_num [norm_logpdf]
    have e2 : norm_logpdf 0 0 2 =
        -Real.log (2 * Real.sqrt (2 * Real.pi)) := by
      norm_num [norm_logpdf]
    have hlt : norm_logpdf 0 0 (2 ^ 2) < norm_logpdf 0 0 2 := by
      rw [e1, e2]
      exact neg_lt_neg hlog
    exact ne_of_lt hlt

/-- C3: the claim states the public `step` returns a pair
`(GibbsState, None)`.  The code's `step` returns
`kernel(rng_key, state, ...)` directly, and `kernel` returns a bare
`GibbsState` — no `(state, info)` tuple is ever built, contradicting
both the claim and `step`'s own `tuple[GibbsState, None]` annotation.
Evaluated at key 0 and the concrete state `s₀`: the result is
`StepReturn.bare out₀`, and a bare state is never a
`(state, None)` pair. -/
theorem C3_step_returns_bare_not_pair :
    step trivExt f₀ 0 sch₀ 0 s₀ = some (StepReturn.bare out₀) ∧
    ∀ s : GibbsState, StepReturn.bare out₀ ≠ StepReturn.pairNone s := by
  refine ⟨?_, fun s h => StepReturn.noConfusion h⟩
  rw [step, kernel_eval_base]
  rfl

/-- C4: the claim states every pseudo-random key is consumed by exactly
one operation: in `init_denoising` the Gaussian-proposal key should
differ from the Bernoulli key, and in `denoise` the inner `init` key
should differ from the keys driving the transitions.  The code reuses
its keys: `init_denoising` passes its single `rng_key` both to
`generate_gaussian_noise` (line 103) and to `jax.random.bernoulli`
(line 138) with no split, and `denoise` passes its `rng_key` to
`denoiser.init` (line 166) and then splits the very same key
(line 172) to drive the transitions — the same key is consumed by two
operations in both functions. -/
theorem C4_same_key_consumed_twice (k : Key) :
    init_denoising_noise_key k = init_denoising_bernoulli_key k ∧
    denoise_init_key k = denoise_split_key k :=
  ⟨rfl, rfl⟩

/-- C5: for every kernel invocation, the `logdensity` and
`logdensity_grad` fields of the emitted `GibbsState` are the target
log-density value and gradient evaluated at the pre-transition
position (the input state's position), not at the returned denoised
position: `kernel` computes them at line 216 from `state.position`
before any move and copies them unchanged into the new state at
lines 236-238. -/
theorem C5_emitted_logdensity_is_pre_transition (ext : Externals)
    (rng_key : Key) (state : GibbsState) (logdensity_fn : PyTree → ℝ)
    (n_steps : ℕ) (schedule : ℕ → ℝ × ℝ) (out : GibbsState)
    (h : kernel ext rng_key state logdensity_fn n_steps schedule = some out) :
    out.logdensity = logdensity_fn state.position ∧
    out.logdensity_grad = ext.gradOf logdensity_fn state.position := by
  rw [kernel] at h
  obtain ⟨np, hnp, h⟩ := Option.bind_eq_some.mp h
  obtain ⟨pos, hpos, h⟩ := Option.bind_eq_some.mp h
  cases h
  exact ⟨rfl, rfl⟩

/-- Witness for C5 at the concrete run `kernel_eval_base`. -/
theorem C5_witness :
    out₀.logdensity = f₀ s₀.position ∧
    out₀.logdensity_grad = trivExt.gradOf f₀ s₀.position :=
  C5_emitted_logdensity_is_pre_transition trivExt 0 s₀ f₀ 0 sch₀ out₀
    kernel_eval_base

/-- C6: in every `GibbsState` emitted by `init` or by the kernel,
`(noise_contraction, noise_sigma)` is exactly `schedule(count)`:
`init` sets `count = 0` with `schedule(0)` (lines 268-276), and the
kernel emits `count = state.count + 1` with `schedule` evaluated at
that new count (lines 234-238), so the count never decreases. -/
theorem C6_schedule_count_invariant (ext : Externals)
    (logdensity_fn : PyTree → ℝ) (schedule : ℕ → ℝ × ℝ) (pos : PyTree)
    (rng_key : Key) (state : GibbsState) (n_steps : ℕ) (out : GibbsState) :
    ((init ext logdensity_fn schedule pos).count = 0 ∧
      ((init ext logdensity_fn schedule pos).noise_contraction,
        (init ext logdensity_fn schedule pos).noise_sigma) = schedule 0) ∧
    (kernel ext rng_key state logdensity_fn n_steps schedule = some out →
      out.count = state.count + 1 ∧
      (out.noise_contraction, out.noise_sigma) = schedule out.count) := by
  refine ⟨⟨rfl, rfl⟩, fun h => ?_⟩
  rw [kernel] at h
  obtain ⟨np, hnp, h⟩ := Option.bind_eq_some.mp h
  obtain ⟨p, hp, h⟩ := Option.bind_eq_some.mp h
  cases h
  exact ⟨rfl, rfl⟩

/-- Witness for C6 at the concrete run `kernel_eval_base`. -/
theorem C6_witness :
    ((init trivExt f₀ sch₀ (.leaf [0])).count = 0 ∧
      ((init trivExt f₀ sch₀ (.leaf [0])).noise_contraction,
        (init trivExt f₀ sch₀ (.leaf [0])).noise_sigma) = sch₀ 0) ∧
    (out₀.count = s₀.count + 1 ∧
      (out₀.noise_contraction, out₀.noise_sigma) = sch₀ out₀.count) :=
  ⟨(C6_schedule_count_invariant trivExt f₀ sch₀ (.leaf [0]) 0 s₀ 0 out₀).1,
   (C6_schedule_count_invariant trivExt f₀ sch₀ (.leaf [0]) 0 s₀ 0 out₀).2
     kernel_eval_base⟩

/-- C7: `init_denoising` returns the proposal when the Bernoulli
decision accepts and the ORIGINAL `state.position` (not the noised
position) when it rejects; the selection
`jax.tree.map(lambda x, y: jnp.where(do_accept, x, y), proposal, position)`
(lines 140-142) is elementwise per leaf with the single `do_accept`
decision shared by every leaf, so the whole returned tree is the
proposal or the whole original position. -/
theorem C7_select_proposal_or_position (ext : Externals) (rng_key : Key)
    (noised_position : PyTree) (state : GibbsState)
    (logdensity_fn : PyTree → ℝ) (p : PyTree) (q : ℝ)
    (hp : proposalOf ext rng_key noised_position state = some p)
    (hq : prob_acceptOf state logdensity_fn noised_position p = some q)
    (hs : sameStruct p state.position = true) :
    init_denoising ext rng_key noised_position state logdensity_fn =
      some (cond (ext.bernoulli (init_denoising_bernoulli_key rng_key) q)
        p state.position) := by
  rw [init_denoising, hp, Option.some_bind, hq, Option.some_bind]
  cases hb : ext.bernoulli (init_denoising_bernoulli_key rng_key) q with
  | false =>
    show treeMap2 (jwhere false) p state.position =
      some (cond false p state.position)
    have hj : jwhere false = fun _ y => y := by
      funext a b
      simp [jwhere]
    rw [hj, Bool.cond_false]
    exact treeMap2_const_right hs
  | true =>
    show treeMap2 (jwhere true) p state.position =
      some (cond true p state.position)
    have hj : jwhere true = fun x _ => x := by
      funext a b
      simp [jwhere]
    rw [hj, Bool.cond_true]
    exact treeMap2_const_left hs

/-- Witness for C7 at a concrete accepting run. -/
theorem C7_witness :
    init_denoising trivExt 5 (.leaf [0]) s₀ f₀ =
      some (cond (trivExt.bernoulli (init_denoising_bernoulli_key 5) 1)
        (.leaf [0]) s₀.position) :=
  C7_select_proposal_or_position trivExt 5 (.leaf [0]) s₀ f₀ (.leaf [0]) 1
    (proposalOf_eval_base 5) prob_acceptOf_eval_base rfl

/-- C8: the acceptance probability used in the Bernoulli draw of
`init_denoising` is `jnp.clip(jnp.exp(log_accept), 0.0, 1.0)`
(line 136): it lies in `[0, 1]` for every `log_accept`, equals exactly
`1` at `log_accept = 50`, and is precisely the value the Bernoulli
draw receives (`prob_acceptOf` maps `prob_accept_of_log` over the
log-acceptance ratio). -/
theorem C8_prob_accept_clipped :
    (∀ la : ℝ, 0 ≤ prob_accept_of_log la ∧ prob_accept_of_log la ≤ 1) ∧
    prob_accept_of_log 50 = 1 ∧
    ∀ (state : GibbsState) (logdensity_fn : PyTree → ℝ)
      (noised_position proposal_position : PyTree),
      prob_acceptOf state logdensity_fn noised_position proposal_position =
        (log_acceptOf state logdensity_fn noised_position
          proposal_position).map prob_accept_of_log := by
  refine ⟨fun la => ⟨?_, ?_⟩, ?_, fun _ _ _ _ => rfl⟩
  · rw [prob_accept_of_log, clip]
    exact le_min (le_max_right _ _) zero_le_one
  · rw [prob_accept_of_log, clip]
    exact min_le_right _ _
  · rw [prob_accept_of_log, clip]
    rw [max_eq_left (Real.exp_pos 50).le]
    refine min_eq_right ?_
    have h := Real.exp_le_exp.mpr (by norm_num : (0 : ℝ) ≤ 50)
    rw [Real.exp_zero] at h
    exact h

/-- C9: the inner refinement sampler the kernel hands to `denoise` is
`blackjax.mala(conditional_logprob, 1e-2)` (lines 231-233):
MALA over the tethered surrogate
`logdensity_fn(x) − Σ_leaves ‖α·x − noised_position‖² / (2σ²)`
with the hard-coded step size `1e-2`.  `inner_sampler_of` takes
neither `n_steps` nor `schedule` nor any other configuration, so no
element of the public configuration surface can change the sampler or
its step size. -/
theorem C9_inner_sampler_hardcoded (ext : Externals)
    (logdensity_fn : PyTree → ℝ) (noise_contraction noise_sigma : ℝ)
    (noised_position x : PyTree)
    (h : sameStruct (x.umap (fun t => t * noise_contraction))
        noised_position = true) :
    conditional_logprob logdensity_fn noise_contraction noise_sigma
        noised_position x =
      some (tethered_surrogate_spec logdensity_fn noise_contraction
        noise_sigma noised_position x) ∧
    inner_sampler_of ext logdensity_fn noise_contraction noise_sigma
        noised_position =
      ext.mala (conditional_logprob logdensity_fn noise_contraction
        noise_sigma noised_position) (1 / 100) := by
  refine ⟨?_, rfl⟩
  simp only [conditional_logprob]
  rw [treeMapReduce_eq_pairSum _ h, Option.some_bind]
  rfl

/-- Witness for C9 at a concrete input. -/
theorem C9_witness :
    conditional_logprob f₀ 1 1 (.leaf [0]) (.leaf [1]) =
      some (tethered_surrogate_spec f₀ 1 1 (.leaf [0]) (.leaf [1])) ∧
    inner_sampler_of trivExt f₀ 1 1 (.leaf [0]) =
      trivExt.mala (conditional_logprob f₀ 1 1 (.leaf [0])) (1 / 100) :=
  C9_inner_sampler_hardcoded trivExt f₀ 1 1 (.leaf [0]) (.leaf [1]) rfl

/-- C10: `noiser_logpdf` maps `jnp.multiply` over the pair
`(sample_clean, noise_contraction)` (line 74); the scalar
`noise_contraction` is a single-leaf pytree, so whenever
`sample_clean` has more than one leaf the tree structures of the two
`jax.tree.map` arguments mismatch and the call fails (raises) rather
than returning a value. -/
theorem C10_noiser_logpdf_needs_single_leaf
    (noise_contraction noise_sigma : ℝ)
    (sample_noised sample_clean : PyTree)
    (h : 1 < sample_clean.leafCount) :
    noiser_logpdf noise_contraction noise_sigma sample_noised
      sample_clean = none := by
  cases sample_clean with
  | leaf v => simp [PyTree.leafCount] at h
  | node l r => rfl

/-- Witness for C10 at a concrete two-leaf clean sample. -/
theorem C10_witness :
    1 < (PyTree.node (.leaf [0]) (.leaf [0])).leafCount ∧
    noiser_logpdf 1 1 (.leaf [0])
      (PyTree.node (.leaf [0]) (.leaf [0])) = none :=
  ⟨by decide,
   C10_noiser_logpdf_needs_single_leaf 1 1 (.leaf [0])
     (PyTree.node (.leaf [0]) (.leaf [0])) (by decide)⟩

end DiffusiveGibbs
